import Mathlib

/-!
# Air cargo booking/tracking backend: a shallow embedding

This file embeds the core of the air_cargo backend (route search,
flight-sequence validation, booking lifecycle, reference-id generation and
history assembly) as executable Lean definitions, and proves the spec's
claims about them.

Modelling conventions:
* SQL timestamps (`departure_datetime`, `arrival_datetime`, `created_at`)
  are integers counting milliseconds, matching JavaScript `Date.getTime()`.
  `DATE(ts)` / `toISOString().split('T')[0]` become `dateOf`, the floor
  division by the number of milliseconds in a day.
* SQL `ORDER BY col ASC` and JavaScript `Array.prototype.sort` (stable)
  are modelled by a stable insertion sort keyed on the column.
* Each table is a Lean list of rows; `INSERT` appends (rowid order),
  `UPDATE ... WHERE` maps a conditional replacement over the list and the
  driver's `changes > 0` is `List.any` of the `WHERE` predicate.
* The `flight_ids` column of `bookings` holds JSON text; `JSON.parse` of it
  either yields a list of ids or throws.  The column is modelled by
  `StoredItin`: `absent` (NULL), `malformed` (parse throws), `ids l`.
-/

namespace AirCargo

/-- Milliseconds in one hour. -/
def msPerHour : Int := 3600000

/-- Milliseconds in one day. -/
def msPerDay : Int := 86400000

/-- Minimum connection time, 2 hours in milliseconds (RouteService). -/
def minConnectionMs : Int := 2 * msPerHour

/-- Maximum connection time, 24 hours in milliseconds (RouteService). -/
def maxConnectionMs : Int := 24 * msPerHour

/-- The UTC calendar date of a timestamp, as days since the epoch:
models SQLite `DATE(...)` and JS `toISOString().split('T')[0]` on
millisecond timestamps. -/
def dateOf (t : Int) : Int := Int.fdiv t msPerDay

/-- A row of the `airlines` table. -/
structure Airline where
  id : Nat
  code : String
  name : String
deriving DecidableEq, Repr

/-- A row of the `flights` table (`dep`/`arr` are the
`departure_datetime`/`arrival_datetime` timestamps). -/
structure Flight where
  id : Nat
  flight_number : String
  airline_id : Nat
  origin : String
  destination : String
  dep : Int
  arr : Int
deriving DecidableEq, Repr

/-- Comparison by an integer key: the order used for `ORDER BY key ASC`
and for JS sorts whose comparator subtracts the keys. -/
def keyLE (k : α → Int) (a b : α) : Prop := k a ≤ k b

instance (k : α → Int) : DecidableRel (keyLE k) := fun a b =>
  inferInstanceAs (Decidable (k a ≤ k b))

instance (k : α → Int) : IsTotal α (keyLE k) := ⟨fun a b => le_total (k a) (k b)⟩

instance (k : α → Int) : IsTrans α (keyLE k) := ⟨fun _ _ _ h h' => le_trans h h'⟩

/-- Stable ascending sort by an integer key (models `ORDER BY` / stable
JS `sort`). -/
def sortByKey (k : α → Int) (l : List α) : List α := l.insertionSort (keyLE k)

/-- The `JOIN airlines a ON f.airline_id = a.id` condition: the flight row
survives the inner join exactly when its carrier exists. -/
def flightHasAirline (al : List Airline) (f : Flight) : Prop :=
  ∃ a ∈ al, a.id = f.airline_id

instance (al : List Airline) (f : Flight) : Decidable (flightHasAirline al f) :=
  inferInstanceAs (Decidable (∃ a ∈ al, a.id = f.airline_id))

/-- `RouteService.getFlightDetails`: rows of `flights` joined with
`airlines` whose id is in `ids`, ordered by departure time ascending;
empty input short-circuits to the empty list. -/
def getFlightDetails (fl : List Flight) (al : List Airline) (ids : List Nat) : List Flight :=
  if ids.isEmpty then []
  else sortByKey Flight.dep
    (fl.filter (fun f => decide (f.id ∈ ids ∧ flightHasAirline al f)))

/-- The distinct failure messages of `RouteService.validateFlightSequence`. -/
inductive SeqError where
  | noFlights
  | notFound
  | routeBreak
  | insufficientConn
  | connTooLong
deriving DecidableEq, Repr

/-- The pairwise loop of `validateFlightSequence`: scan consecutive legs in
order, reporting the first violated rule. -/
def checkSequencePairs : List Flight → Option SeqError
  | [] => none
  | [_] => none
  | a :: b :: rest =>
    if a.destination ≠ b.origin then some .routeBreak
    else if b.dep - a.arr < minConnectionMs then some .insufficientConn
    else if b.dep - a.arr > maxConnectionMs then some .connTooLong
    else checkSequencePairs (b :: rest)

/-- `RouteService.validateFlightSequence`: `none` means `{valid: true}`,
`some e` the corresponding failure. -/
def validateFlightSequence (fl : List Flight) (al : List Airline) (ids : List Nat) :
    Option SeqError :=
  if ids.isEmpty then some .noFlights
  else
    let flights := getFlightDetails fl al ids
    if flights.length ≠ ids.length then some .notFound
    else checkSequencePairs (sortByKey Flight.dep flights)

/-- A first-leg/second-leg pair returned by the transit search. -/
structure TransitRoute where
  first_flight : Flight
  second_flight : Flight
deriving DecidableEq, Repr

/-- Total elapsed time of a transit route: first departure to second
arrival (the JS sort comparator's key). -/
def totalTravelMs (p : TransitRoute) : Int := p.second_flight.arr - p.first_flight.dep

/-- The per-hub second-leg query of `RouteService.findTransitRoutes`:
flights from the hub to the final destination departing on the arrival's
calendar day or the day 24h later, no earlier than arrival plus the
minimum connection time; ordered by departure, `LIMIT 5`. -/
def secondLegCandidates (fl : List Flight) (al : List Airline)
    (hub finalDest : String) (arrMs : Int) : List Flight :=
  (sortByKey Flight.dep
    (fl.filter (fun f => decide (flightHasAirline al f ∧ f.origin = hub ∧
      f.destination = finalDest ∧
      (dateOf f.dep = dateOf arrMs ∨ dateOf f.dep = dateOf (arrMs + msPerDay)) ∧
      arrMs + minConnectionMs ≤ f.dep)))).take 5

/-- The first-leg query of `findTransitRoutes`: flights leaving the origin
on the search date towards any airport other than the destination, ordered
by departure. -/
def firstLegFlights (fl : List Flight) (al : List Airline)
    (origin finalDest : String) (day : Int) : List Flight :=
  sortByKey Flight.dep
    (fl.filter (fun f => decide (flightHasAirline al f ∧ f.origin = origin ∧
      dateOf f.dep = day ∧ f.destination ≠ finalDest)))

/-- `RouteService.findTransitRoutes`: pair each first leg with its filtered
second-leg candidates, sort all pairs by total travel time, return the top
10. -/
def findTransitRoutes (fl : List Flight) (al : List Airline)
    (origin finalDest : String) (day : Int) : List TransitRoute :=
  let pairs := (firstLegFlights fl al origin finalDest day).flatMap (fun f1 =>
    ((secondLegCandidates fl al f1.destination finalDest f1.arr).filter
        (fun f2 => decide (minConnectionMs ≤ f2.dep - f1.arr ∧
          f2.dep - f1.arr ≤ maxConnectionMs))).map
      (fun f2 => TransitRoute.mk f1 f2))
  (sortByKey totalTravelMs pairs).take 10

/-- The `status` enum of bookings. -/
inductive BookingStatus where
  | BOOKED
  | DEPARTED
  | ARRIVED
  | DELIVERED
  | CANCELLED
deriving DecidableEq, Repr

/-- The `event_type` enum of timeline events. -/
inductive EventType where
  | CREATED
  | DEPARTED
  | ARRIVED
  | DELIVERED
  | CANCELLED
deriving DecidableEq, Repr

/-- The `flight_ids` column of a booking, as seen through `JSON.parse`:
NULL, text that fails to parse, or a parsed list of flight ids. -/
inductive StoredItin where
  | absent
  | malformed
  | ids (l : List Nat)
deriving DecidableEq, Repr

/-- A row of the `bookings` table. -/
structure Booking where
  id : Nat
  ref_id : String
  user_id : Nat
  origin : String
  destination : String
  pieces : Nat
  weight_kg : Nat
  status : BookingStatus
  flight_ids : StoredItin
  updated_at : Int
deriving DecidableEq, Repr

/-- A row of the `timeline_events` table. -/
structure TimelineEvent where
  id : Nat
  booking_id : Nat
  event_type : EventType
  location : Option String
  flight_info : Option String
  notes : Option String
  created_at : Int
deriving DecidableEq, Repr

/-- The whole store, plus the autoincrement cursors and the clock
(`CURRENT_TIMESTAMP`) used for inserted rows. -/
structure DB where
  flights : List Flight
  airlines : List Airline
  bookings : List Booking
  events : List TimelineEvent
  counters : List (String × Nat)
  nextBookingId : Nat
  nextEventId : Nat
  now : Int
deriving Repr

/-- `INSERT INTO timeline_events ...`: append a row with the next rowid and
the current timestamp. -/
def insertEvent (db : DB) (bid : Nat) (ty : EventType)
    (loc fi nts : Option String) : DB :=
  { db with
    events := db.events ++ [⟨db.nextEventId, bid, ty, loc, fi, nts, db.now⟩],
    nextEventId := db.nextEventId + 1 }

/-- `BookingModel.findByRefId`: first booking row matching the reference. -/
def findByRefId (db : DB) (ref : String) : Option Booking :=
  db.bookings.find? (fun b => decide (b.ref_id = ref))

/-- The `WHERE` clause of `BookingModel.updateStatus`: reference matches
and, when a required current status is supplied, the status matches too. -/
def rowMatches (ref : String) (cur : Option BookingStatus) (b : Booking) : Bool :=
  decide (b.ref_id = ref) &&
    (match cur with
     | none => true
     | some c => decide (b.status = c))

/-- `BookingModel.updateStatus`: one conditional `UPDATE`, reporting
whether any row changed (`changes > 0`). -/
def updateStatus (db : DB) (ref : String) (newStatus : BookingStatus)
    (cur : Option BookingStatus) : Bool × DB :=
  (db.bookings.any (rowMatches ref cur),
   { db with
     bookings := db.bookings.map (fun b =>
       if rowMatches ref cur b then
         { b with status := newStatus, updated_at := db.now }
       else b) })

/-- `BookingModel.depart`: compare-and-swap BOOKED → DEPARTED, then append
the DEPARTED timeline event. -/
def depart (db : DB) (ref loc : String) (fi : Option String) : Bool × DB :=
  let r := updateStatus db ref .DEPARTED (some .BOOKED)
  if r.1 then
    match findByRefId r.2 ref with
    | none => (false, r.2)
    | some b =>
      (true, insertEvent r.2 b.id .DEPARTED (some loc) fi
        (some ("Cargo departed from " ++ loc)))
  else (false, r.2)

/-- `BookingModel.arrive`: compare-and-swap DEPARTED → ARRIVED, then append
the ARRIVED timeline event. -/
def arrive (db : DB) (ref loc : String) (fi : Option String) : Bool × DB :=
  let r := updateStatus db ref .ARRIVED (some .DEPARTED)
  if r.1 then
    match findByRefId r.2 ref with
    | none => (false, r.2)
    | some b =>
      (true, insertEvent r.2 b.id .ARRIVED (some loc) fi
        (some ("Cargo arrived at " ++ loc)))
  else (false, r.2)

/-- `BookingModel.cancel`: load the booking, refuse if missing or
ARRIVED/DELIVERED, otherwise update the status unconditionally and append
the CANCELLED event. -/
def cancel (db : DB) (ref : String) : Bool × DB :=
  match findByRefId db ref with
  | none => (false, db)
  | some b =>
    if b.status = .ARRIVED ∨ b.status = .DELIVERED then (false, db)
    else
      let r := updateStatus db ref .CANCELLED none
      if r.1 then
        (true, insertEvent r.2 b.id .CANCELLED none none
          (some "Booking cancelled by user"))
      else (false, r.2)

/-- A decimal digit character, as produced by JS number formatting. -/
def digitChar (n : Nat) : Char := Char.ofNat (48 + n)

/-- Fuelled decimal rendering (most significant digit first); the fuel is
only there to make the recursion structural. -/
def natCharsAux : Nat → Nat → List Char
  | 0, _ => []
  | fuel + 1, n =>
    if n < 10 then [digitChar n]
    else natCharsAux fuel (n / 10) ++ [digitChar (n % 10)]

/-- JS `String(n)` for a natural number: its decimal representation. -/
def natToStr (n : Nat) : String := String.mk (natCharsAux (n + 1) n)

/-- JS `String.prototype.padStart(targetLen, c)`. -/
def padStart (s : String) (targetLen : Nat) (c : Char) : String :=
  if targetLen ≤ s.length then s
  else String.mk (List.replicate (targetLen - s.length) c) ++ s

/-- `String(n).padStart(4, '0')`, the counter formatting. -/
def pad4 (n : Nat) : String := padStart (natToStr n) 4 '0'

/-- Zero-padding to width 2, used for the month/day parts of an ISO date. -/
def pad2 (n : Nat) : String := padStart (natToStr n) 2 '0'

/-- The global replacement of dashes by the empty string performed on the
date key: drop every dash. -/
def removeDashes (s : String) : String :=
  String.mk (s.data.filter (fun c => decide (c ≠ '-')))

/-- The date key `toISOString().split('T')[0]` for a calendar date
`y`-`m`-`d` (YYYY-MM-DD). -/
def isoDateKey (y m d : Nat) : String :=
  pad4 y ++ "-" ++ pad2 m ++ "-" ++ pad2 d

/-- The returned reference id string:
``AC-${formattedDate}-${paddedCounter}``. -/
def formatRefId (dateKey : String) (n : Nat) : String :=
  "AC-" ++ removeDashes dateKey ++ "-" ++ pad4 n

/-- `SELECT counter FROM booking_counters WHERE date_key = ?`. -/
def lookupCounter (cs : List (String × Nat)) (key : String) : Option Nat :=
  (cs.find? (fun p => decide (p.1 = key))).map (fun p => p.2)

/-- `UPDATE booking_counters SET counter = counter + 1 WHERE date_key = ?`. -/
def bumpCounter (cs : List (String × Nat)) (key : String) : List (String × Nat) :=
  cs.map (fun p => if p.1 = key then (p.1, p.2 + 1) else p)

/-- The first awaited statement of `BookingModel.generateRefId`: the
`SELECT` of the day's counter. -/
def refIdSelect (cs : List (String × Nat)) (key : String) : Option Nat :=
  lookupCounter cs key

/-- The second awaited statement of `generateRefId`: `INSERT` a fresh
counter row if the `SELECT` found none, otherwise the increment `UPDATE`. -/
def refIdWrite (cs : List (String × Nat)) (key : String) (r : Option Nat) :
    List (String × Nat) :=
  match r with
  | none => cs ++ [(key, 1)]
  | some _ => bumpCounter cs key

/-- The counter value `generateRefId` formats: `1` for a fresh day,
otherwise the locally read value plus one (`counter.counter += 1`). -/
def refIdLocalValue (r : Option Nat) : Nat :=
  match r with
  | none => 1
  | some c => c + 1

/-- `BookingModel.generateRefId`, run without interleaving: `SELECT`, then
the write, then format from the locally held value. -/
def generateRefId (cs : List (String × Nat)) (key : String) :
    String × List (String × Nat) :=
  let r := refIdSelect cs key
  (formatRefId key (refIdLocalValue r), refIdWrite cs key r)

/-- Counter-table state after `n` sequential `generateRefId` calls for the
same date key. -/
def countersAfter (cs : List (String × Nat)) (key : String) : Nat → List (String × Nat)
  | 0 => cs
  | n + 1 => (generateRefId (countersAfter cs key n) key).2

/-- The reference id handed out by the `k`-th sequential call (`k ≥ 1`). -/
def nthRefId (cs : List (String × Nat)) (key : String) (k : Nat) : String :=
  (generateRefId (countersAfter cs key (k - 1)) key).1

/-- Two `generateRefId` calls racing on the same store, under the schedule
in which both `SELECT`s are served before either write: each request's
steps are the source's awaited statements, only their interleaving is
chosen by the scheduler.  Returns the two reference ids handed out. -/
def racedRefIds (cs : List (String × Nat)) (key : String) : String × String :=
  let rA := refIdSelect cs key
  let rB := refIdSelect cs key
  let cs1 := refIdWrite cs key rA
  let _cs2 := refIdWrite cs1 key rB
  (formatRefId key (refIdLocalValue rA), formatRefId key (refIdLocalValue rB))

/-- The regex `^AC-\d{8}-\d{4}$` as a decidable string predicate: 16
characters, literal `AC-` prefix, 8 digits, a dash, 4 digits. -/
def matchesRefIdPattern (s : String) : Bool :=
  decide (s.data.length = 16) &&
  decide (s.data.take 3 = ['A', 'C', '-']) &&
  ((s.data.drop 3).take 8).all Char.isDigit &&
  decide ((s.data.drop 11).take 1 = ['-']) &&
  (s.data.drop 12).all Char.isDigit

/-- `BookingModel.create`: generate a reference id, insert the booking row
with status BOOKED, and append the CREATED timeline event at the origin.
Returns the new state and the inserted row. -/
def createBookingRow (db : DB) (uid : Nat) (origin finalDest : String)
    (pieces weight : Nat) (fids : Option (List Nat)) (dateKey : String) :
    DB × Booking :=
  let g := generateRefId db.counters dateKey
  let b : Booking :=
    { id := db.nextBookingId
      ref_id := g.1
      user_id := uid
      origin := origin
      destination := finalDest
      pieces := pieces
      weight_kg := weight
      status := .BOOKED
      flight_ids := match fids with
        | some l => .ids l
        | none => .absent
      updated_at := db.now }
  let db1 : DB :=
    { db with
      counters := g.2
      bookings := db.bookings ++ [b]
      nextBookingId := db.nextBookingId + 1 }
  (insertEvent db1 b.id .CREATED (some origin) none
    (some ("Booking created for " ++ natToStr pieces ++ " pieces, " ++
      natToStr weight ++ "kg")), b)

instance : Inhabited Flight :=
  ⟨{ id := 0, flight_number := "", airline_id := 0, origin := "",
     destination := "", dep := 0, arr := 0 }⟩

/-- The error taxonomy of `BookingsController.createBooking`. -/
inductive CreateError where
  | invalidRoute
  | invalidSequence (e : SeqError)
  | invalidFlights
  | routeMismatch
deriving DecidableEq, Repr

/-- The body of a booking-creation request. -/
structure CreateRequest where
  origin : String
  destination : String
  pieces : Nat
  weight_kg : Nat
  flight_ids : List Nat
deriving Repr

/-- `BookingsController.createBooking` for an authenticated user: the
validation cascade, then the model-level insert.  Returns the error, if
any, and the resulting store state. -/
def createBooking (db : DB) (uid : Nat) (req : CreateRequest) (dateKey : String) :
    Option CreateError × DB :=
  if req.origin = req.destination then (some .invalidRoute, db)
  else
    match validateFlightSequence db.flights db.airlines req.flight_ids with
    | some e => (some (.invalidSequence e), db)
    | none =>
      let flights := getFlightDetails db.flights db.airlines req.flight_ids
      if flights.length = 0 then (some .invalidFlights, db)
      else
        let firstFlight := flights.head?.getD default
        let lastFlight := flights.getLast?.getD default
        if firstFlight.origin ≠ req.origin ∨ lastFlight.destination ≠ req.destination then
          (some .routeMismatch, db)
        else
          (none, (createBookingRow db uid req.origin req.destination req.pieces
            req.weight_kg (some req.flight_ids) dateKey).1)

/-- `[...new Set(xs)]`: deduplication keeping first occurrences. -/
def firstDedup : List Nat → List Nat
  | [] => []
  | x :: xs => x :: (firstDedup xs).filter (fun y => decide (y ≠ x))

/-- The assembled answer of `TimelineService.getBookingHistory`. -/
structure HistoryResponse where
  booking : Booking
  timeline : List TimelineEvent
  flight_details : List Flight
  airline_details : List Airline
deriving Repr

/-- `TimelineService.getBookingHistory`: `none` is the NotFound case;
otherwise the booking, its events ordered by creation time, the resolved
itinerary flights (empty when the stored ids are absent or unparseable)
and the distinct referenced carriers. -/
def getBookingHistory (db : DB) (ref : String) : Option HistoryResponse :=
  match findByRefId db ref with
  | none => none
  | some b =>
    let timeline := sortByKey TimelineEvent.created_at
      (db.events.filter (fun e => decide (e.booking_id = b.id)))
    match b.flight_ids with
    | .absent => some ⟨b, timeline, [], []⟩
    | .malformed => some ⟨b, timeline, [], []⟩
    | .ids l =>
      let fd := getFlightDetails db.flights db.airlines l
      let aids := firstDedup (fd.map Flight.airline_id)
      some ⟨b, timeline, fd,
        db.airlines.filter (fun a => decide (a.id ∈ aids))⟩

/-! ## Generic helper lemmas -/

theorem sortByKey_perm (k : α → Int) (l : List α) : (sortByKey k l).Perm l :=
  List.perm_insertionSort _ l

theorem mem_sortByKey {k : α → Int} {l : List α} {a : α} :
    a ∈ sortByKey k l ↔ a ∈ l :=
  (sortByKey_perm k l).mem_iff

theorem length_sortByKey (k : α → Int) (l : List α) :
    (sortByKey k l).length = l.length :=
  (sortByKey_perm k l).length_eq

theorem sorted_sortByKey (k : α → Int) (l : List α) :
    (sortByKey k l).Pairwise (keyLE k) :=
  List.sorted_insertionSort _ l

theorem find?_map_eq (f : α → β) (p : β → Bool) (l : List α) :
    (l.map f).find? p = (l.find? (fun a => p (f a))).map f := by
  induction l with
  | nil => rfl
  | cons a t ih =>
    by_cases h : p (f a)
    · simp [List.find?, h]
    · simp only [List.map_cons, List.find?, h]
      exact ih

theorem find?_eq_some_of_unique {p : α → Bool} {l : List α} {b : α}
    (hb : b ∈ l) (hpb : p b = true) (huniq : ∀ x ∈ l, p x = true → x = b) :
    l.find? p = some b := by
  induction l with
  | nil => cases hb
  | cons a t ih =>
    by_cases hpa : p a = true
    · have ha : a = b := huniq a (List.mem_cons_self a t) hpa
      simp [List.find?, hpa, ha, hpb]
    · simp only [List.find?, hpa, Bool.false_eq_true, if_false]
      have hbt : b ∈ t := by
        rcases List.mem_cons.mp hb with h | h
        · exact absurd (h ▸ hpb) hpa
        · exact h
      exact ih hbt (fun x hx hpx => huniq x (List.mem_cons_of_mem a hx) hpx)

/-! ## Decimal rendering and padding lemmas (reference-id format) -/

theorem digitChar_isDigit {n : Nat} (h : n < 10) : (digitChar n).isDigit = true := by
  interval_cases n <;> decide

theorem natCharsAux_digits :
    ∀ fuel n, n < fuel → ∀ c ∈ natCharsAux fuel n, c.isDigit = true := by
  intro fuel
  induction fuel with
  | zero => intro n h; omega
  | succ fuel ih =>
    intro n _ c hc
    by_cases h10 : n < 10
    · simp only [natCharsAux, if_pos h10, List.mem_singleton] at hc
      exact hc ▸ digitChar_isDigit h10
    · simp only [natCharsAux, if_neg h10, List.mem_append, List.mem_singleton] at hc
      rcases hc with hc | hc
      · have hlt : n / 10 < fuel := by omega
        exact ih (n / 10) hlt c hc
      · exact hc ▸ digitChar_isDigit (Nat.mod_lt n (by omega))

theorem natCharsAux_length_le :
    ∀ fuel n k, n < fuel → n < 10 ^ k → 1 ≤ k →
      (natCharsAux fuel n).length ≤ k := by
  intro fuel
  induction fuel with
  | zero => intro n k h; omega
  | succ fuel ih =>
    intro n k hf hk hk1
    by_cases h10 : n < 10
    · simp [natCharsAux, if_pos h10]
      omega
    · simp only [natCharsAux, if_neg h10, List.length_append, List.length_singleton]
      have hk2 : 2 ≤ k := by
        by_contra hlt
        have : k = 1 := by omega
        subst this
        simp at hk
        omega
      have hdivfuel : n / 10 < fuel := by omega
      have hdivpow : n / 10 < 10 ^ (k - 1) := by
        have h1 : 10 ^ k = 10 ^ (k - 1) * 10 := by
          have : k - 1 + 1 = k := by omega
          calc 10 ^ k = 10 ^ (k - 1 + 1) := by rw [this]
          _ = 10 ^ (k - 1) * 10 := by rw [pow_succ]
        have := (Nat.div_lt_iff_lt_mul (by omega : 0 < 10)).mpr (h1 ▸ hk)
        exact this
      have := ih (n / 10) (k - 1) hdivfuel hdivpow (by omega)
      omega

theorem natToStr_digits {n : Nat} : ∀ c ∈ (natToStr n).data, c.isDigit = true := by
  intro c hc
  exact natCharsAux_digits (n + 1) n (Nat.lt_succ_self n) c hc

theorem natToStr_length_le {n k : Nat} (hk : n < 10 ^ k) (hk1 : 1 ≤ k) :
    (natToStr n).length ≤ k :=
  natCharsAux_length_le (n + 1) n k (Nat.lt_succ_self n) hk hk1

theorem isDigit_ne_dash {c : Char} (h : c.isDigit = true) : c ≠ '-' := by
  intro he
  subst he
  exact absurd h (by decide)

theorem padStart_data_of_le {s : String} {n : Nat} {c : Char} (h : s.length ≤ n) :
    (padStart s n c).data = List.replicate (n - s.length) c ++ s.data := by
  unfold padStart
  by_cases he : n ≤ s.length
  · have : n = s.length := le_antisymm he h
    simp [if_pos he, this]
  · simp [if_neg he]

theorem padStart_length_of_le {s : String} {n : Nat} {c : Char} (h : s.length ≤ n) :
    (padStart s n c).length = n := by
  have hd := padStart_data_of_le (s := s) (c := c) h
  have : (padStart s n c).length = (padStart s n c).data.length := rfl
  rw [this, hd]
  simp [List.length_replicate]
  have : s.length = s.data.length := rfl
  omega

theorem pad4_length {n : Nat} (h : n < 10000) : (pad4 n).length = 4 :=
  padStart_length_of_le (natToStr_length_le (by norm_num at h ⊢; omega) (by omega))

theorem pad4_digits {n : Nat} (h : n < 10000) :
    ∀ c ∈ (pad4 n).data, c.isDigit = true := by
  intro c hc
  have hle : (natToStr n).length ≤ 4 :=
    natToStr_length_le (k := 4) (by norm_num; omega) (by omega)
  rw [pad4, padStart_data_of_le hle, List.mem_append] at hc
  rcases hc with hc | hc
  · rw [List.eq_of_mem_replicate hc]
    decide
  · exact natToStr_digits c hc

theorem pad2_length {n : Nat} (h : n < 100) : (pad2 n).length = 2 :=
  padStart_length_of_le (natToStr_length_le (by norm_num; omega) (by omega))

theorem pad2_digits {n : Nat} (h : n < 100) :
    ∀ c ∈ (pad2 n).data, c.isDigit = true := by
  intro c hc
  have hle : (natToStr n).length ≤ 2 :=
    natToStr_length_le (k := 2) (by norm_num; omega) (by omega)
  rw [pad2, padStart_data_of_le hle, List.mem_append] at hc
  rcases hc with hc | hc
  · rw [List.eq_of_mem_replicate hc]
    decide
  · exact natToStr_digits c hc

theorem filter_ne_dash_of_digits {l : List Char} (h : ∀ c ∈ l, c.isDigit = true) :
    l.filter (fun c => decide (c ≠ '-')) = l := by
  induction l with
  | nil => rfl
  | cons c t ih =>
    have hc : c ≠ '-' := isDigit_ne_dash (h c (List.mem_cons_self c t))
    simp only [List.filter_cons, decide_eq_true_eq]
    rw [if_pos hc, ih (fun x hx => h x (List.mem_cons_of_mem c hx))]

theorem removeDashes_isoDateKey {y m d : Nat} (hy : y < 10000) (hm : m < 100)
    (hd : d < 100) :
    (removeDashes (isoDateKey y m d)).data =
      (pad4 y).data ++ (pad2 m).data ++ (pad2 d).data := by
  have hdata : (isoDateKey y m d).data =
      (pad4 y).data ++ '-' :: ((pad2 m).data ++ '-' :: (pad2 d).data) := by
    simp [isoDateKey, String.data_append]
  rw [removeDashes, hdata]
  simp only [List.filter_append, List.filter_cons]
  rw [filter_ne_dash_of_digits (pad4_digits hy),
    filter_ne_dash_of_digits (pad2_digits hm),
    filter_ne_dash_of_digits (pad2_digits hd)]
  simp

theorem removeDashes_isoDateKey_len {y m d : Nat} (hy : y < 10000) (hm : m < 100)
    (hd : d < 100) : (removeDashes (isoDateKey y m d)).data.length = 8 := by
  rw [removeDashes_isoDateKey hy hm hd]
  simp only [List.length_append]
  have h4 : (pad4 y).data.length = 4 := pad4_length hy
  have h2 : (pad2 m).data.length = 2 := pad2_length hm
  have h2' : (pad2 d).data.length = 2 := pad2_length hd
  omega

theorem removeDashes_isoDateKey_digits {y m d : Nat} (hy : y < 10000) (hm : m < 100)
    (hd : d < 100) :
    ∀ c ∈ (removeDashes (isoDateKey y m d)).data, c.isDigit = true := by
  rw [removeDashes_isoDateKey hy hm hd]
  intro c hc
  simp only [List.mem_append] at hc
  rcases hc with (hc | hc) | hc
  · exact pad4_digits hy c hc
  · exact pad2_digits hm c hc
  · exact pad2_digits hd c hc

/-- A reference id built from an 8-digit date part and a 4-digit counter
part matches the regex. -/
theorem formatRefId_matches {dk pc : String}
    (hdk8 : dk.data.length = 8) (hdkd : ∀ c ∈ dk.data, c.isDigit = true)
    (hpc4 : pc.data.length = 4) (hpcd : ∀ c ∈ pc.data, c.isDigit = true) :
    matchesRefIdPattern ("AC-" ++ dk ++ "-" ++ pc) = true := by
  have hdata : ("AC-" ++ dk ++ "-" ++ pc).data =
      'A' :: 'C' :: '-' :: (dk.data ++ '-' :: pc.data) := by
    simp [String.data_append]
  have hdrop3 : ("AC-" ++ dk ++ "-" ++ pc).data.drop 3 = dk.data ++ '-' :: pc.data := by
    rw [hdata]
    rfl
  have htake8 : (dk.data ++ '-' :: pc.data).take 8 = dk.data := by
    rw [← hdk8]
    exact List.take_left dk.data ('-' :: pc.data)
  have hdrop8 : (dk.data ++ '-' :: pc.data).drop 8 = '-' :: pc.data := by
    rw [← hdk8]
    exact List.drop_left dk.data ('-' :: pc.data)
  have hdrop11 : ("AC-" ++ dk ++ "-" ++ pc).data.drop 11 = '-' :: pc.data := by
    have : (11 : Nat) = 3 + 8 := by norm_num
    rw [this, ← List.drop_drop, hdrop3, hdrop8]
  have hdrop12 : ("AC-" ++ dk ++ "-" ++ pc).data.drop 12 = pc.data := by
    have : (12 : Nat) = 11 + 1 := by norm_num
    rw [this, ← List.drop_drop, hdrop11]
    rfl
  have hlen : ("AC-" ++ dk ++ "-" ++ pc).data.length = 16 := by
    rw [hdata]
    simp only [List.length_cons, List.length_append, List.length_cons, hdk8, hpc4]
  have htake3 : ("AC-" ++ dk ++ "-" ++ pc).data.take 3 = ['A', 'C', '-'] := by
    rw [hdata]
    rfl
  rw [matchesRefIdPattern, hlen, htake3, hdrop3, htake8, hdrop11, hdrop12]
  rw [List.all_eq_true.mpr hdkd, List.all_eq_true.mpr hpcd]
  simp

/-! ## Counter-table lemmas -/

theorem lookupCounter_cons_eq {p : String × Nat} {t : List (String × Nat)}
    {key : String} (hp : p.1 = key) : lookupCounter (p :: t) key = some p.2 := by
  have hdp : (decide (p.1 = key)) = true := by simpa using hp
  simp [lookupCounter, List.find?, hdp]

theorem lookupCounter_cons_ne {p : String × Nat} {t : List (String × Nat)}
    {key : String} (hp : p.1 ≠ key) :
    lookupCounter (p :: t) key = lookupCounter t key := by
  have hdp : (decide (p.1 = key)) = false := by simpa using hp
  simp [lookupCounter, List.find?, hdp]

theorem lookupCounter_append_self {cs : List (String × Nat)} {key : String}
    (h : lookupCounter cs key = none) :
    lookupCounter (cs ++ [(key, 1)]) key = some 1 := by
  induction cs with
  | nil => exact lookupCounter_cons_eq rfl
  | cons p t ih =>
    by_cases hp : p.1 = key
    · rw [lookupCounter_cons_eq hp] at h
      cases h
    · rw [lookupCounter_cons_ne hp] at h
      rw [List.cons_append, lookupCounter_cons_ne hp]
      exact ih h

theorem lookupCounter_bump {cs : List (String × Nat)} {key : String} :
    lookupCounter (bumpCounter cs key) key =
      (lookupCounter cs key).map (fun c => c + 1) := by
  induction cs with
  | nil => rfl
  | cons p t ih =>
    by_cases hp : p.1 = key
    · have hhead : (if p.1 = key then (p.1, p.2 + 1) else p) = (p.1, p.2 + 1) :=
        if_pos hp
      rw [bumpCounter, List.map_cons, hhead,
        lookupCounter_cons_eq (p := (p.1, p.2 + 1)) hp,
        lookupCounter_cons_eq hp]
      rfl
    · have hhead : (if p.1 = key then (p.1, p.2 + 1) else p) = p := if_neg hp
      rw [bumpCounter, List.map_cons, hhead, lookupCounter_cons_ne hp,
        lookupCounter_cons_ne hp]
      exact ih

theorem countersAfter_lookup {cs : List (String × Nat)} {key : String}
    (h : lookupCounter cs key = none) :
    ∀ n, lookupCounter (countersAfter cs key n) key =
      if n = 0 then none else some n := by
  intro n
  induction n with
  | zero => simpa [countersAfter] using h
  | succ n ih =>
    have hstep : countersAfter cs key (n + 1) =
        refIdWrite (countersAfter cs key n) key
          (lookupCounter (countersAfter cs key n) key) := rfl
    by_cases hn : n = 0
    · subst hn
      simp only [if_pos rfl] at ih
      rw [hstep, ih]
      simp only [refIdWrite]
      simpa using lookupCounter_append_self ih
    · rw [if_neg hn] at ih
      rw [hstep, ih]
      simp only [refIdWrite]
      rw [lookupCounter_bump, ih]
      simp

theorem nthRefId_formatted {cs : List (String × Nat)} {key : String} {k : Nat}
    (h0 : lookupCounter cs key = none) (hk1 : 1 ≤ k) :
    nthRefId cs key k = formatRefId key k := by
  have hlk := countersAfter_lookup h0 (k - 1)
  rw [nthRefId]
  simp only [generateRefId, refIdSelect]
  by_cases hk0 : k - 1 = 0
  · have hk' : k = 1 := by omega
    rw [if_pos hk0] at hlk
    rw [hk0] at hlk ⊢
    rw [hlk, hk']
    rfl
  · rw [if_neg hk0] at hlk
    rw [hlk]
    simp only [refIdLocalValue]
    congr 1
    omega

/-- C6: while the daily counter stays below 10000, every generated booking
reference id has the form `AC-YYYYMMDD-NNNN` (and matches the regex),
where `YYYYMMDD` is the creation date and `NNNN` is the day's counter
zero-padded to 4 digits; starting from a day with no counter row, the
`k`-th sequential call of `generateRefId` returns counter value `k`. -/
theorem C6_refId_format (cs : List (String × Nat)) (y m d k : Nat)
    (hy : y < 10000) (hm : m < 100) (hd : d < 100)
    (hk1 : 1 ≤ k) (hk : k < 10000)
    (h0 : lookupCounter cs (isoDateKey y m d) = none) :
    nthRefId cs (isoDateKey y m d) k =
      "AC-" ++ removeDashes (isoDateKey y m d) ++ "-" ++ pad4 k ∧
    matchesRefIdPattern (nthRefId cs (isoDateKey y m d) k) = true := by
  have hfmt : nthRefId cs (isoDateKey y m d) k = formatRefId (isoDateKey y m d) k :=
    nthRefId_formatted h0 hk1
  constructor
  · rw [hfmt]
    rfl
  · rw [hfmt, formatRefId]
    exact formatRefId_matches
      (removeDashes_isoDateKey_len hy hm hd)
      (removeDashes_isoDateKey_digits hy hm hd)
      (pad4_length hk)
      (pad4_digits hk)

theorem C6_refId_format_witness :
    nthRefId [] (isoDateKey 2026 10 11) 3 =
      "AC-" ++ removeDashes (isoDateKey 2026 10 11) ++ "-" ++ pad4 3 ∧
    matchesRefIdPattern (nthRefId [] (isoDateKey 2026 10 11) 3) = true :=
  C6_refId_format [] 2026 10 11 3 (by decide) (by decide) (by decide)
    (by decide) (by decide) rfl

/-- C7: the claim says two concurrent same-day creations can never receive
the same counter value because the increment is serialized.  The code
instead formats the id from the counter value read by its earlier
`SELECT`; under the legal interleaving in which both `SELECT`s run before
either write, the two calls always return identical reference ids —
concretely, with the day's counter at 1, both racers get `AC-...-0002`. -/
theorem C7_raced_duplicate :
    (∀ (cs : List (String × Nat)) (key : String),
      (racedRefIds cs key).1 = (racedRefIds cs key).2) ∧
    (racedRefIds [(isoDateKey 2026 10 11, 1)] (isoDateKey 2026 10 11)).1 =
      "AC-20261011-0002" ∧
    (racedRefIds [(isoDateKey 2026 10 11, 1)] (isoDateKey 2026 10 11)).2 =
      "AC-20261011-0002" := by
  refine ⟨fun cs key => rfl, by decide, by decide⟩

/-! ## Status-transition lemmas -/

theorem rowMatches_some_iff {ref : String} {c : BookingStatus} {b : Booking} :
    rowMatches ref (some c) b = true ↔ b.ref_id = ref ∧ b.status = c := by
  simp [rowMatches]

theorem rowMatches_none_iff {ref : String} {b : Booking} :
    rowMatches ref none b = true ↔ b.ref_id = ref := by
  simp [rowMatches]

theorem updateStatus_noMatch {db : DB} {ref : String} {ns : BookingStatus}
    {cur : Option BookingStatus}
    (h : ∀ b ∈ db.bookings, ¬ rowMatches ref cur b = true) :
    updateStatus db ref ns cur = (false, db) := by
  have h1 : db.bookings.any (rowMatches ref cur) = false := by
    rw [List.any_eq_false]
    exact h
  have h2 : db.bookings.map (fun b => if rowMatches ref cur b then
      { b with status := ns, updated_at := db.now } else b) = db.bookings := by
    have hcongr := List.map_congr_left (l := db.bookings)
      (f := fun b => if rowMatches ref cur b then
        { b with status := ns, updated_at := db.now } else b)
      (g := id) (fun b hb => if_neg (h b hb))
    simpa using hcongr
  rw [updateStatus, h1, h2]

theorem updateStatus_map_eq (ns : BookingStatus) {db : DB} {ref : String}
    {c : BookingStatus} {b : Booking}
    (hnd : (db.bookings.map Booking.ref_id).Nodup)
    (hb : b ∈ db.bookings) (href : b.ref_id = ref) (hst : b.status = c) :
    db.bookings.map (fun x => if rowMatches ref (some c) x then
      { x with status := ns, updated_at := db.now } else x) =
    db.bookings.map (fun x => if x.ref_id = ref then
      { x with status := ns, updated_at := db.now } else x) := by
  apply List.map_congr_left
  intro x hx
  by_cases hxr : x.ref_id = ref
  · have hxb : x = b :=
      List.inj_on_of_nodup_map hnd hx hb (by rw [hxr, href])
    subst hxb
    rw [if_pos (rowMatches_some_iff.mpr ⟨href, hst⟩), if_pos hxr]
  · rw [if_neg (fun hm => hxr (rowMatches_some_iff.mp hm).1), if_neg hxr]

theorem findByRefId_after_map {db : DB} {ref : String} {b : Booking}
    (u : Booking → Booking) (hu : ∀ x, (u x).ref_id = x.ref_id)
    (hnd : (db.bookings.map Booking.ref_id).Nodup)
    (hb : b ∈ db.bookings) (href : b.ref_id = ref) :
    (db.bookings.map (fun x => if x.ref_id = ref then u x else x)).find?
      (fun x => decide (x.ref_id = ref)) = some (u b) := by
  have hpres : ∀ x : Booking,
      ((fun x => if x.ref_id = ref then u x else x) x).ref_id = x.ref_id := by
    intro x
    show (if x.ref_id = ref then u x else x).ref_id = x.ref_id
    by_cases hxr : x.ref_id = ref
    · rw [if_pos hxr, hu]
    · rw [if_neg hxr]
  rw [find?_map_eq]
  have hped : (fun a : Booking =>
      decide (((fun x => if x.ref_id = ref then u x else x) a).ref_id = ref)) =
      (fun a : Booking => decide (a.ref_id = ref)) := by
    funext a
    rw [hpres a]
  rw [hped]
  have hfind : db.bookings.find? (fun a => decide (a.ref_id = ref)) = some b := by
    apply find?_eq_some_of_unique hb
    · simpa using href
    · intro x hx hpx
      exact List.inj_on_of_nodup_map hnd hx hb
        (by rw [of_decide_eq_true hpx, href])
  rw [hfind]
  show some (if b.ref_id = ref then u b else b) = some (u b)
  rw [if_pos href]

theorem depart_noBooked {db : DB} {ref loc : String} {fi : Option String}
    (h : ∀ b ∈ db.bookings, ¬(b.ref_id = ref ∧ b.status = .BOOKED)) :
    depart db ref loc fi = (false, db) := by
  have hupd : updateStatus db ref .DEPARTED (some .BOOKED) = (false, db) :=
    updateStatus_noMatch (fun b hb hm => h b hb (rowMatches_some_iff.mp hm))
  rw [depart, hupd]
  rfl

theorem depart_booked {db : DB} {ref loc : String} {fi : Option String}
    {b : Booking}
    (hnd : (db.bookings.map Booking.ref_id).Nodup)
    (hb : b ∈ db.bookings) (href : b.ref_id = ref) (hst : b.status = .BOOKED) :
    depart db ref loc fi =
      (true,
       { db with
         bookings := db.bookings.map (fun x => if x.ref_id = ref then
           { x with status := .DEPARTED, updated_at := db.now } else x),
         events := db.events ++ [⟨db.nextEventId, b.id, .DEPARTED, some loc, fi,
           some ("Cargo departed from " ++ loc), db.now⟩],
         nextEventId := db.nextEventId + 1 }) := by
  have hany : db.bookings.any (rowMatches ref (some .BOOKED)) = true :=
    List.any_eq_true.mpr ⟨b, hb, rowMatches_some_iff.mpr ⟨href, hst⟩⟩
  have hmap := updateStatus_map_eq .DEPARTED hnd hb href hst
  have hupd : updateStatus db ref .DEPARTED (some .BOOKED) =
      (true,
       { db with
         bookings := db.bookings.map (fun x => if x.ref_id = ref then
           { x with status := .DEPARTED, updated_at := db.now } else x) }) := by
    rw [updateStatus, hany, hmap]
  have hfound := findByRefId_after_map
    (fun x => { x with status := BookingStatus.DEPARTED, updated_at := db.now })
    (fun x => rfl) hnd hb href
  rw [depart, hupd]
  simp only [if_pos rfl]
  rw [findByRefId] at *
  show (match (db.bookings.map (fun x => if x.ref_id = ref then
      { x with status := .DEPARTED, updated_at := db.now } else x)).find?
        (fun x => decide (x.ref_id = ref)) with
    | none => _
    | some b => _) = _
  rw [hfound]
  rfl

theorem arrive_noDeparted {db : DB} {ref loc : String} {fi : Option String}
    (h : ∀ b ∈ db.bookings, ¬(b.ref_id = ref ∧ b.status = .DEPARTED)) :
    arrive db ref loc fi = (false, db) := by
  have hupd : updateStatus db ref .ARRIVED (some .DEPARTED) = (false, db) :=
    updateStatus_noMatch (fun b hb hm => h b hb (rowMatches_some_iff.mp hm))
  rw [arrive, hupd]
  rfl

theorem arrive_departed {db : DB} {ref loc : String} {fi : Option String}
    {b : Booking}
    (hnd : (db.bookings.map Booking.ref_id).Nodup)
    (hb : b ∈ db.bookings) (href : b.ref_id = ref) (hst : b.status = .DEPARTED) :
    arrive db ref loc fi =
      (true,
       { db with
         bookings := db.bookings.map (fun x => if x.ref_id = ref then
           { x with status := .ARRIVED, updated_at := db.now } else x),
         events := db.events ++ [⟨db.nextEventId, b.id, .ARRIVED, some loc, fi,
           some ("Cargo arrived at " ++ loc), db.now⟩],
         nextEventId := db.nextEventId + 1 }) := by
  have hany : db.bookings.any (rowMatches ref (some .DEPARTED)) = true :=
    List.any_eq_true.mpr ⟨b, hb, rowMatches_some_iff.mpr ⟨href, hst⟩⟩
  have hmap := updateStatus_map_eq .ARRIVED hnd hb href hst
  have hupd : updateStatus db ref .ARRIVED (some .DEPARTED) =
      (true,
       { db with
         bookings := db.bookings.map (fun x => if x.ref_id = ref then
           { x with status := .ARRIVED, updated_at := db.now } else x) }) := by
    rw [updateStatus, hany, hmap]
  have hfound := findByRefId_after_map
    (fun x => { x with status := BookingStatus.ARRIVED, updated_at := db.now })
    (fun x => rfl) hnd hb href
  rw [arrive, hupd]
  simp only [if_pos rfl]
  rw [findByRefId] at *
  show (match (db.bookings.map (fun x => if x.ref_id = ref then
      { x with status := .ARRIVED, updated_at := db.now } else x)).find?
        (fun x => decide (x.ref_id = ref)) with
    | none => _
    | some b => _) = _
  rw [hfound]
  rfl

/-- C5: `depart` (resp. `arrive`) updates only where the reference matches
and the status is BOOKED (resp. DEPARTED): when no row qualifies the call
returns `false` and leaves the store untouched; when one does, it returns
`true`, flips exactly that row's status, and appends exactly one DEPARTED
(resp. ARRIVED) timeline event carrying the location and the optional
flight-info payload. -/
theorem C5_depart_arrive_cas (db : DB) (ref loc : String) (fi : Option String)
    (hnd : (db.bookings.map Booking.ref_id).Nodup) :
    ((∀ b ∈ db.bookings, ¬(b.ref_id = ref ∧ b.status = .BOOKED)) →
      depart db ref loc fi = (false, db)) ∧
    (∀ b ∈ db.bookings, b.ref_id = ref → b.status = .BOOKED →
      depart db ref loc fi =
        (true,
         { db with
           bookings := db.bookings.map (fun x => if x.ref_id = ref then
             { x with status := .DEPARTED, updated_at := db.now } else x),
           events := db.events ++ [⟨db.nextEventId, b.id, .DEPARTED, some loc, fi,
             some ("Cargo departed from " ++ loc), db.now⟩],
           nextEventId := db.nextEventId + 1 })) ∧
    ((∀ b ∈ db.bookings, ¬(b.ref_id = ref ∧ b.status = .DEPARTED)) →
      arrive db ref loc fi = (false, db)) ∧
    (∀ b ∈ db.bookings, b.ref_id = ref → b.status = .DEPARTED →
      arrive db ref loc fi =
        (true,
         { db with
           bookings := db.bookings.map (fun x => if x.ref_id = ref then
             { x with status := .ARRIVED, updated_at := db.now } else x),
           events := db.events ++ [⟨db.nextEventId, b.id, .ARRIVED, some loc, fi,
             some ("Cargo arrived at " ++ loc), db.now⟩],
           nextEventId := db.nextEventId + 1 })) := by
  refine ⟨fun h => depart_noBooked h, fun b hb href hst => ?_,
    fun h => arrive_noDeparted h, fun b hb href hst => ?_⟩
  · exact depart_booked hnd hb href hst
  · exact arrive_departed hnd hb href hst

/-- A BOOKED example booking for the lifecycle witnesses. -/
def wBooking : Booking :=
  { id := 1, ref_id := "AC-20260101-0001", user_id := 7, origin := "DEL",
    destination := "BOM", pieces := 2, weight_kg := 100, status := .BOOKED,
    flight_ids := .absent, updated_at := 0 }

/-- Witness store for the lifecycle claims: one BOOKED booking. -/
def wDB : DB :=
  { flights := [], airlines := [], bookings := [wBooking], events := [],
    counters := [], nextBookingId := 2, nextEventId := 1, now := 5 }

theorem wDB_nodup : (wDB.bookings.map Booking.ref_id).Nodup :=
  List.nodup_singleton wBooking.ref_id

theorem C5_depart_arrive_cas_witness :
    (depart wDB "AC-20260101-0001" "DEL" none).1 = true ∧
    (arrive wDB "ZZ" "DEL" none) = (false, wDB) := by
  constructor
  · have h := (C5_depart_arrive_cas wDB "AC-20260101-0001" "DEL" none
      wDB_nodup).2.1 wBooking (List.mem_singleton_self wBooking) rfl rfl
    rw [h]
  · refine (C5_depart_arrive_cas wDB "ZZ" "DEL" none wDB_nodup).2.2.1 ?_
    intro b hb hcon
    have hbw : b = wBooking := List.mem_singleton.mp hb
    subst hbw
    exact absurd hcon.1 (by decide)

theorem cancel_missing {db : DB} {ref : String}
    (h : ∀ b ∈ db.bookings, b.ref_id ≠ ref) :
    cancel db ref = (false, db) := by
  have hfind : findByRefId db ref = none := by
    rw [findByRefId, List.find?_eq_none]
    intro x hx
    simpa using h x hx
  rw [cancel, hfind]

theorem findByRefId_eq_some {db : DB} {ref : String} {b : Booking}
    (hnd : (db.bookings.map Booking.ref_id).Nodup)
    (hb : b ∈ db.bookings) (href : b.ref_id = ref) :
    findByRefId db ref = some b := by
  rw [findByRefId]
  apply find?_eq_some_of_unique hb
  · simpa using href
  · intro x hx hpx
    exact List.inj_on_of_nodup_map hnd hx hb
      (by rw [of_decide_eq_true hpx, href])

theorem cancel_terminal {db : DB} {ref : String} {b : Booking}
    (hnd : (db.bookings.map Booking.ref_id).Nodup)
    (hb : b ∈ db.bookings) (href : b.ref_id = ref)
    (hst : b.status = .ARRIVED ∨ b.status = .DELIVERED) :
    cancel db ref = (false, db) := by
  rw [cancel, findByRefId_eq_some hnd hb href]
  show (if b.status = .ARRIVED ∨ b.status = .DELIVERED then ((false, db) : Bool × DB)
    else _) = (false, db)
  rw [if_pos hst]

theorem cancel_active {db : DB} {ref : String} {b : Booking}
    (hnd : (db.bookings.map Booking.ref_id).Nodup)
    (hb : b ∈ db.bookings) (href : b.ref_id = ref)
    (hna : ¬ b.status = .ARRIVED) (hnl : ¬ b.status = .DELIVERED) :
    cancel db ref =
      (true,
       { db with
         bookings := db.bookings.map (fun x => if x.ref_id = ref then
           { x with status := .CANCELLED, updated_at := db.now } else x),
         events := db.events ++ [⟨db.nextEventId, b.id, .CANCELLED, none, none,
           some "Booking cancelled by user", db.now⟩],
         nextEventId := db.nextEventId + 1 }) := by
  have hany : db.bookings.any (rowMatches ref none) = true :=
    List.any_eq_true.mpr ⟨b, hb, rowMatches_none_iff.mpr href⟩
  have hfun : (fun x : Booking => if rowMatches ref none x then
      { x with status := BookingStatus.CANCELLED, updated_at := db.now } else x) =
      (fun x : Booking => if x.ref_id = ref then
      { x with status := BookingStatus.CANCELLED, updated_at := db.now } else x) := by
    funext x
    by_cases hx : x.ref_id = ref
    · rw [if_pos (rowMatches_none_iff.mpr hx), if_pos hx]
    · rw [if_neg (fun hm => hx (rowMatches_none_iff.mp hm)), if_neg hx]
  have hupd : updateStatus db ref .CANCELLED none =
      (true,
       { db with
         bookings := db.bookings.map (fun x => if x.ref_id = ref then
           { x with status := .CANCELLED, updated_at := db.now } else x) }) := by
    rw [updateStatus, hany, hfun]
  rw [cancel, findByRefId_eq_some hnd hb href]
  show (if b.status = .ARRIVED ∨ b.status = .DELIVERED then _
    else
      let r := updateStatus db ref .CANCELLED none
      if r.1 then
        (true, insertEvent r.2 b.id .CANCELLED none none
          (some "Booking cancelled by user"))
      else (false, r.2)) = _
  rw [if_neg (by tauto), hupd]
  rfl

/-- C1 counterexample booking: already CANCELLED. -/
def cBooking : Booking :=
  { id := 1, ref_id := "AC-20260101-0001", user_id := 7, origin := "DEL",
    destination := "BOM", pieces := 2, weight_kg := 100, status := .CANCELLED,
    flight_ids := .absent, updated_at := 0 }

/-- C1 counterexample store: a single already-CANCELLED booking. -/
def cDB : DB :=
  { flights := [], airlines := [], bookings := [cBooking], events := [],
    counters := [], nextBookingId := 2, nextEventId := 1, now := 5 }

/-- C1, counterexample: the claim says `cancel` fails on an
already-CANCELLED booking, but the code only refuses ARRIVED/DELIVERED, so
cancelling a CANCELLED booking returns `true` and appends another
CANCELLED event. -/
theorem C1_cancel_counterexample :
    (cancel cDB "AC-20260101-0001").1 = true ∧
    (cancel cDB "AC-20260101-0001").2.events.length = cDB.events.length + 1 := by
  constructor
  · decide
  · decide

/-- C1 (amended): `cancel` fails (returns `false`, store untouched) when
the booking is missing or its status is ARRIVED or DELIVERED; in every
other status — BOOKED, DEPARTED, and also an already-CANCELLED booking —
it succeeds, sets the status to CANCELLED and appends exactly one
CANCELLED timeline event. -/
theorem C1_cancel_behavior (db : DB) (ref : String)
    (hnd : (db.bookings.map Booking.ref_id).Nodup) :
    ((∀ b ∈ db.bookings, b.ref_id ≠ ref) → cancel db ref = (false, db)) ∧
    (∀ b ∈ db.bookings, b.ref_id = ref →
      (b.status = .ARRIVED ∨ b.status = .DELIVERED) →
      cancel db ref = (false, db)) ∧
    (∀ b ∈ db.bookings, b.ref_id = ref →
      (b.status = .BOOKED ∨ b.status = .DEPARTED ∨ b.status = .CANCELLED) →
      cancel db ref =
        (true,
         { db with
           bookings := db.bookings.map (fun x => if x.ref_id = ref then
             { x with status := .CANCELLED, updated_at := db.now } else x),
           events := db.events ++ [⟨db.nextEventId, b.id, .CANCELLED, none, none,
             some "Booking cancelled by user", db.now⟩],
           nextEventId := db.nextEventId + 1 })) := by
  refine ⟨cancel_missing, fun b hb href hst => cancel_terminal hnd hb href hst,
    fun b hb href hst => cancel_active hnd hb href ?_ ?_⟩
  · rcases hst with h | h | h <;> simp [h]
  · rcases hst with h | h | h <;> simp [h]

theorem C1_cancel_behavior_witness :
    cancel cDB "ZZ" = (false, cDB) := by
  refine (C1_cancel_behavior cDB "ZZ" (by decide)).1 ?_
  intro b hb
  have hb1 : b ∈ cDB.bookings := hb
  rw [show cDB.bookings = [cBooking] from rfl] at hb1
  have := List.mem_singleton.mp hb1
  subst this
  decide

/-! ## Flight-sequence validation lemmas -/

/-- The per-pair rule of `validateFlightSequence`: consecutive legs share
the airport and the connection gap lies in the 2h–24h window. -/
def legOk (a b : Flight) : Prop :=
  a.destination = b.origin ∧ minConnectionMs ≤ b.dep - a.arr ∧
    b.dep - a.arr ≤ maxConnectionMs

instance (a b : Flight) : Decidable (legOk a b) :=
  inferInstanceAs (Decidable (_ ∧ _ ∧ _))

/-- Some consecutive pair of the list satisfies `P`. -/
def hasAdjPair (P : Flight → Flight → Prop) (l : List Flight) : Prop :=
  ∃ p a b s, l = p ++ a :: b :: s ∧ P a b

theorem hasAdjPair_cons {P : Flight → Flight → Prop} {x : Flight} {l : List Flight}
    (h : hasAdjPair P l) : hasAdjPair P (x :: l) := by
  obtain ⟨p, a, b, s, hl, hP⟩ := h
  exact ⟨x :: p, a, b, s, by rw [hl]; rfl, hP⟩

theorem checkSequencePairs_eq_none_iff :
    ∀ l : List Flight, checkSequencePairs l = none ↔ l.Chain' legOk
  | [] => by simp [checkSequencePairs]
  | [a] => by simp [checkSequencePairs]
  | a :: b :: rest => by
    have ih := checkSequencePairs_eq_none_iff (b :: rest)
    rw [List.chain'_cons, ← ih]
    simp only [checkSequencePairs]
    split_ifs with h1 h2 h3
    · exact iff_of_false (by simp) (fun hc => h1 hc.1.1)
    · refine iff_of_false (by simp) (fun hc => ?_)
      have := hc.1.2.1
      omega
    · refine iff_of_false (by simp) (fun hc => ?_)
      have := hc.1.2.2
      omega
    · have hok : legOk a b := ⟨not_not.mp h1, by omega, by omega⟩
      simp [hok]

theorem checkSequencePairs_error :
    ∀ l : List Flight, ∀ e : SeqError, checkSequencePairs l = some e →
      (e = .routeBreak ∧ hasAdjPair (fun a b => a.destination ≠ b.origin) l) ∨
      (e = .insufficientConn ∧ hasAdjPair (fun a b => a.destination = b.origin ∧
        b.dep - a.arr < minConnectionMs) l) ∨
      (e = .connTooLong ∧ hasAdjPair (fun a b => a.destination = b.origin ∧
        minConnectionMs ≤ b.dep - a.arr ∧ maxConnectionMs < b.dep - a.arr) l)
  | [], e => by simp [checkSequencePairs]
  | [a], e => by simp [checkSequencePairs]
  | a :: b :: rest, e => by
    intro h
    simp only [checkSequencePairs] at h
    split_ifs at h with h1 h2 h3
    · cases h
      exact Or.inl ⟨rfl, [], a, b, rest, rfl, h1⟩
    · cases h
      exact Or.inr (Or.inl ⟨rfl, [], a, b, rest, rfl, not_not.mp h1, h2⟩)
    · cases h
      exact Or.inr (Or.inr ⟨rfl, [], a, b, rest, rfl, not_not.mp h1, by omega,
        by omega⟩)
    · rcases checkSequencePairs_error (b :: rest) e h with ⟨he, hp⟩ | ⟨he, hp⟩ | ⟨he, hp⟩
      · exact Or.inl ⟨he, hasAdjPair_cons hp⟩
      · exact Or.inr (Or.inl ⟨he, hasAdjPair_cons hp⟩)
      · exact Or.inr (Or.inr ⟨he, hasAdjPair_cons hp⟩)

/-- Under a primary-key-unique flight table, a distinct, fully resolving
id list resolves to exactly as many joined rows as it has ids. -/
theorem getFlightDetails_length_eq {fl : List Flight} {al : List Airline}
    {ids : List Nat}
    (hpk : (fl.map Flight.id).Nodup) (hnd : ids.Nodup)
    (hres : ∀ i ∈ ids, ∃ f ∈ fl, f.id = i ∧ flightHasAirline al f) :
    (getFlightDetails fl al ids).length = ids.length := by
  by_cases hids : ids.isEmpty
  · rw [getFlightDetails, if_pos hids]
    rw [List.isEmpty_iff] at hids
    simp [hids]
  · rw [getFlightDetails, if_neg hids, length_sortByKey, ← List.length_map
      (f := Flight.id)]
    have hsub : ((fl.filter (fun f => decide (f.id ∈ ids ∧ flightHasAirline al f))).map
        Flight.id).Sublist (fl.map Flight.id) :=
      (List.filter_sublist fl).map Flight.id
    have hndL : ((fl.filter (fun f => decide (f.id ∈ ids ∧ flightHasAirline al f))).map
        Flight.id).Nodup := hpk.sublist hsub
    have hmem : ∀ x : Nat, x ∈ (fl.filter (fun f => decide (f.id ∈ ids ∧
        flightHasAirline al f))).map Flight.id ↔ x ∈ ids := by
      intro x
      constructor
      · intro hx
        obtain ⟨f, hf, hfx⟩ := List.mem_map.mp hx
        have := List.mem_filter.mp hf
        have hp := of_decide_eq_true this.2
        exact hfx ▸ hp.1
      · intro hx
        obtain ⟨f, hf, hfid, hfa⟩ := hres x hx
        refine List.mem_map.mpr ⟨f, List.mem_filter.mpr ⟨hf, ?_⟩, hfid⟩
        exact decide_eq_true (by exact ⟨hfid ▸ hx, hfa⟩)
    have hfin : ((fl.filter (fun f => decide (f.id ∈ ids ∧ flightHasAirline al f))).map
        Flight.id).toFinset = ids.toFinset := by
      apply Finset.ext
      intro x
      simp only [List.mem_toFinset]
      exact hmem x
    exact (List.perm_of_nodup_nodup_toFinset_eq hndL hnd hfin).length_eq

/-- Joined resolution can never return more rows than there are distinct
ids. -/
theorem getFlightDetails_length_le {fl : List Flight} {al : List Airline}
    {ids : List Nat} (hpk : (fl.map Flight.id).Nodup) :
    (getFlightDetails fl al ids).length ≤ ids.dedup.length := by
  by_cases hids : ids.isEmpty
  · rw [getFlightDetails, if_pos hids]
    simp
  · rw [getFlightDetails, if_neg hids, length_sortByKey, ← List.length_map
      (f := Flight.id)]
    have hsub : ((fl.filter (fun f => decide (f.id ∈ ids ∧ flightHasAirline al f))).map
        Flight.id).Sublist (fl.map Flight.id) :=
      (List.filter_sublist fl).map Flight.id
    have hndL : ((fl.filter (fun f => decide (f.id ∈ ids ∧ flightHasAirline al f))).map
        Flight.id).Nodup := hpk.sublist hsub
    have hsubset : ((fl.filter (fun f => decide (f.id ∈ ids ∧ flightHasAirline al f))).map
        Flight.id) ⊆ ids := by
      intro x hx
      obtain ⟨f, hf, hfx⟩ := List.mem_map.mp hx
      have := List.mem_filter.mp hf
      exact hfx ▸ (of_decide_eq_true this.2).1
    calc ((fl.filter (fun f => decide (f.id ∈ ids ∧ flightHasAirline al f))).map
          Flight.id).length
        = ((fl.filter (fun f => decide (f.id ∈ ids ∧ flightHasAirline al f))).map
          Flight.id).toFinset.card := (List.toFinset_card_of_nodup hndL).symm
      _ ≤ ids.toFinset.card := Finset.card_le_card (fun x hx =>
          List.mem_toFinset.mpr (hsubset (List.mem_toFinset.mp hx)))
      _ = ids.dedup.length := List.card_toFinset ids

theorem dedup_length_lt_of_not_nodup {ids : List Nat} (h : ¬ ids.Nodup) :
    ids.dedup.length < ids.length := by
  have hsub := List.dedup_sublist ids
  have hle := hsub.length_le
  rcases lt_or_eq_of_le hle with hlt | heq
  · exact hlt
  · exfalso
    have : ids.dedup = ids := hsub.eq_of_length heq
    exact h (this ▸ List.nodup_dedup ids)

/-- When some id resolves to no joined flight row, the resolution returns
strictly fewer rows than there are (distinct) ids. -/
theorem getFlightDetails_length_lt {fl : List Flight} {al : List Airline}
    {ids : List Nat} {i0 : Nat}
    (hpk : (fl.map Flight.id).Nodup) (hnd : ids.Nodup)
    (hi : i0 ∈ ids) (hun : ∀ f ∈ fl, ¬(f.id = i0 ∧ flightHasAirline al f)) :
    (getFlightDetails fl al ids).length < ids.length := by
  have hne : ids ≠ [] := List.ne_nil_of_mem hi
  have hemp : ids.isEmpty = false := by
    cases ids with
    | nil => exact absurd rfl hne
    | cons a t => rfl
  have hids : ¬ ids.isEmpty := by simp [hemp]
  rw [getFlightDetails, if_neg hids, length_sortByKey, ← List.length_map
    (f := Flight.id)]
  have hsub : ((fl.filter (fun f => decide (f.id ∈ ids ∧ flightHasAirline al f))).map
      Flight.id).Sublist (fl.map Flight.id) :=
    (List.filter_sublist fl).map Flight.id
  have hndL : ((fl.filter (fun f => decide (f.id ∈ ids ∧ flightHasAirline al f))).map
      Flight.id).Nodup := hpk.sublist hsub
  have hmem : ∀ x : Nat, x ∈ (fl.filter (fun f => decide (f.id ∈ ids ∧
      flightHasAirline al f))).map Flight.id → x ∈ ids ∧ x ≠ i0 := by
    intro x hx
    obtain ⟨f, hf, hfx⟩ := List.mem_map.mp hx
    have hm := List.mem_filter.mp hf
    have hp := of_decide_eq_true hm.2
    refine ⟨hfx ▸ hp.1, ?_⟩
    intro hxe
    exact hun f hm.1 ⟨by rw [hfx, hxe], hp.2⟩
  have hLfin : ((fl.filter (fun f => decide (f.id ∈ ids ∧ flightHasAirline al f))).map
      Flight.id).toFinset ⊆ ids.toFinset.erase i0 := by
    intro x hx
    have hx2 := hmem x (List.mem_toFinset.mp hx)
    exact Finset.mem_erase.mpr ⟨hx2.2, List.mem_toFinset.mpr hx2.1⟩
  calc ((fl.filter (fun f => decide (f.id ∈ ids ∧ flightHasAirline al f))).map
        Flight.id).length
      = ((fl.filter (fun f => decide (f.id ∈ ids ∧ flightHasAirline al f))).map
        Flight.id).toFinset.card := (List.toFinset_card_of_nodup hndL).symm
    _ ≤ (ids.toFinset.erase i0).card := Finset.card_le_card hLfin
    _ = ids.toFinset.card - 1 := Finset.card_erase_of_mem (List.mem_toFinset.mpr hi)
    _ = ids.length - 1 := by rw [List.toFinset_card_of_nodup hnd]
    _ < ids.length := by
        have hpos : 0 < ids.length := List.length_pos.mpr hne
        omega

/-- C2 (amended): for every non-empty list of pairwise-distinct flight
ids, if the ids all resolve (to joined flight rows) then
`validateFlightSequence` sorts the resolved flights by departure time and
succeeds iff every consecutive pair shares the airport and keeps the
2h–24h connection window; a single-id sequence trivially validates; each
failure names the rule some consecutive pair of the sorted sequence
violates (RouteBreak for the airport mismatch, InsufficientConnection
below 2h, ConnectionTooLong above 24h).  If instead any id does not
resolve to a flight, the operation fails with the InvalidSequence
resolution failure ('Some flights not found').  [The distinctness
hypothesis is forced: with a duplicated id the resolved row count is
smaller than the id count and the operation fails with the resolution
error even though every id resolves.] -/
theorem C2_validate_pairwise (fl : List Flight) (al : List Airline) (ids : List Nat)
    (hpk : (fl.map Flight.id).Nodup)
    (hne : ids ≠ []) (hnd : ids.Nodup) :
    ((∀ i ∈ ids, ∃ f ∈ fl, f.id = i ∧ flightHasAirline al f) →
      (validateFlightSequence fl al ids = none ↔
        (sortByKey Flight.dep (getFlightDetails fl al ids)).Chain' legOk) ∧
      (ids.length = 1 → validateFlightSequence fl al ids = none) ∧
      (∀ e, validateFlightSequence fl al ids = some e →
        (e = .routeBreak ∧ hasAdjPair (fun a b => a.destination ≠ b.origin)
          (sortByKey Flight.dep (getFlightDetails fl al ids))) ∨
        (e = .insufficientConn ∧ hasAdjPair (fun a b => a.destination = b.origin ∧
          b.dep - a.arr < minConnectionMs)
          (sortByKey Flight.dep (getFlightDetails fl al ids))) ∨
        (e = .connTooLong ∧ hasAdjPair (fun a b => a.destination = b.origin ∧
          minConnectionMs ≤ b.dep - a.arr ∧ maxConnectionMs < b.dep - a.arr)
          (sortByKey Flight.dep (getFlightDetails fl al ids))))) ∧
    (∀ i ∈ ids, (∀ f ∈ fl, ¬(f.id = i ∧ flightHasAirline al f)) →
      validateFlightSequence fl al ids = some .notFound) := by
  have hemp : ids.isEmpty = false := by
    cases ids with
    | nil => exact absurd rfl hne
    | cons a t => rfl
  constructor
  · intro hres
    have hlen := getFlightDetails_length_eq hpk hnd hres
    have heq : validateFlightSequence fl al ids =
        checkSequencePairs (sortByKey Flight.dep (getFlightDetails fl al ids)) := by
      rw [validateFlightSequence]
      simp only [hemp, Bool.false_eq_true, if_false, hlen, ne_eq, not_true_eq_false]
    refine ⟨?_, ?_, ?_⟩
    · rw [heq]
      exact checkSequencePairs_eq_none_iff _
    · intro h1
      have hS : (sortByKey Flight.dep (getFlightDetails fl al ids)).length = 1 := by
        rw [length_sortByKey, hlen, h1]
      obtain ⟨x, hx⟩ := List.length_eq_one.mp hS
      rw [heq, hx]
      rfl
    · intro e he
      rw [heq] at he
      exact checkSequencePairs_error _ e he
  · intro i hi hun
    have hlt := getFlightDetails_length_lt hpk hnd hi hun
    rw [validateFlightSequence]
    simp only [hemp, Bool.false_eq_true, if_false]
    rw [if_pos (by omega)]

/-- Example carrier table for the route-search witnesses. -/
def exAl : List Airline := [⟨1, "AI", "Air India"⟩]

/-- Example first leg: DEL → BOM, departing 08:00, arriving 10:00 (UTC day 0). -/
def exF1 : Flight := ⟨1, "AI101", 1, "DEL", "BOM", 8 * msPerHour, 10 * msPerHour⟩

/-- Example second leg: BOM → BLR, departing 12:30 (2.5h connection),
arriving 14:00. -/
def exF2 : Flight :=
  ⟨2, "AI202", 1, "BOM", "BLR", 12 * msPerHour + 1800000, 14 * msPerHour⟩

/-- C2, counterexample: with the duplicated id list `[1, 1]` every listed
id resolves and the sorted resolved sequence (a single flight) passes
every pairwise check, yet `validateFlightSequence` fails with the
resolution error — so the claim's iff is false without a distinctness
hypothesis. -/
theorem C2_duplicate_counterexample :
    ([1, 1] ≠ ([] : List Nat)) ∧
    (∀ i ∈ [1, 1], ∃ f ∈ [exF1], f.id = i ∧ flightHasAirline exAl f) ∧
    (sortByKey Flight.dep (getFlightDetails [exF1] exAl [1, 1])).Chain' legOk ∧
    validateFlightSequence [exF1] exAl [1, 1] = some .notFound := by
  refine ⟨by decide, by decide, ?_, by decide⟩
  have hlist : sortByKey Flight.dep (getFlightDetails [exF1] exAl [1, 1]) =
      [exF1] := by decide
  rw [hlist]
  exact List.chain'_singleton exF1

theorem C2_validate_pairwise_witness :
    validateFlightSequence [exF1, exF2] exAl [1, 2] = none ∧
    validateFlightSequence [exF1, exF2] exAl [1, 3] = some .notFound := by
  constructor
  · have hlist : sortByKey Flight.dep (getFlightDetails [exF1, exF2] exAl [1, 2]) =
        [exF1, exF2] := by decide
    refine ((C2_validate_pairwise [exF1, exF2] exAl [1, 2] (by decide) (by decide)
      (by decide)).1 (by decide)).1.mpr ?_
    rw [hlist]
    exact List.chain'_cons.mpr ⟨by decide, List.chain'_singleton exF2⟩
  · exact (C2_validate_pairwise [exF1, exF2] exAl [1, 3] (by decide) (by decide)
      (by decide)).2 3 (by decide) (by decide)

/-- C9: `validateFlightSequence` is insensitive to the order of its input
ids — for fully resolving lists with pairwise-distinct departure times,
every permutation of the id list yields the same result, because
resolution is a set-membership filter and the resolved flights are
re-sorted by departure time. -/
theorem C9_validate_perm_invariant (fl : List Flight) (al : List Airline)
    (ids ids' : List Nat) (hperm : ids.Perm ids')
    (hres : ∀ i ∈ ids, ∃ f ∈ fl, f.id = i ∧ flightHasAirline al f)
    (hdep : ((getFlightDetails fl al ids).map Flight.dep).Nodup) :
    validateFlightSequence fl al ids = validateFlightSequence fl al ids' := by
  by_cases hnil : ids = []
  · subst hnil
    have hnil' : ids' = [] := hperm.symm.eq_nil
    rw [hnil']
  · have hnil' : ids' ≠ [] := fun h => hnil (h ▸ hperm).eq_nil
    have hemp : ids.isEmpty = false := by
      cases ids with
      | nil => exact absurd rfl hnil
      | cons a t => rfl
    have hemp' : ids'.isEmpty = false := by
      cases ids' with
      | nil => exact absurd rfl hnil'
      | cons a t => rfl
    have hfilter : (fun f : Flight => decide (f.id ∈ ids ∧ flightHasAirline al f)) =
        (fun f : Flight => decide (f.id ∈ ids' ∧ flightHasAirline al f)) := by
      funext f
      exact decide_eq_decide.mpr (hperm.mem_iff.and Iff.rfl)
    have hgfd : getFlightDetails fl al ids = getFlightDetails fl al ids' := by
      rw [getFlightDetails, getFlightDetails]
      simp only [hemp, hemp', Bool.false_eq_true, if_false, hfilter]
    rw [validateFlightSequence, validateFlightSequence]
    simp only [hemp, hemp', Bool.false_eq_true, if_false, hgfd, hperm.length_eq]

theorem C9_validate_perm_invariant_witness :
    validateFlightSequence [exF1, exF2] exAl [1, 2] =
      validateFlightSequence [exF1, exF2] exAl [2, 1] :=
  C9_validate_perm_invariant [exF1, exF2] exAl [1, 2] [2, 1]
    (List.Perm.swap 2 1 []) (by decide) (by decide)

/-- C10: a flight-id list containing a duplicate always fails validation
with the resolution error ('Some flights not found') even when every
listed id resolves, because the joined rows are distinct and hence fewer
than the ids; consequently booking creation with a duplicated id fails
before any write (the returned store is untouched). -/
theorem C10_duplicate_fails (db : DB) (uid : Nat) (o d : String)
    (p w : Nat) (ids : List Nat) (dateKey : String)
    (hpk : (db.flights.map Flight.id).Nodup)
    (hdup : ¬ ids.Nodup)
    (hres : ∀ i ∈ ids, ∃ f ∈ db.flights, f.id = i ∧
      flightHasAirline db.airlines f) :
    validateFlightSequence db.flights db.airlines ids = some .notFound ∧
    (createBooking db uid ⟨o, d, p, w, ids⟩ dateKey).1.isSome = true ∧
    (createBooking db uid ⟨o, d, p, w, ids⟩ dateKey).2 = db := by
  have hne : ids ≠ [] := fun h => hdup (h ▸ List.nodup_nil)
  have hemp : ids.isEmpty = false := by
    cases ids with
    | nil => exact absurd rfl hne
    | cons a t => rfl
  have hlen : (getFlightDetails db.flights db.airlines ids).length < ids.length :=
    lt_of_le_of_lt (getFlightDetails_length_le hpk)
      (dedup_length_lt_of_not_nodup hdup)
  have hval : validateFlightSequence db.flights db.airlines ids =
      some .notFound := by
    rw [validateFlightSequence]
    simp only [hemp, Bool.false_eq_true, if_false]
    rw [if_pos (by omega)]
  have hcb : createBooking db uid ⟨o, d, p, w, ids⟩ dateKey =
      (some (if o = d then CreateError.invalidRoute
        else .invalidSequence .notFound), db) := by
    rw [createBooking]
    dsimp only
    by_cases ho : o = d
    · rw [if_pos ho, if_pos ho]
    · rw [if_neg ho, if_neg ho, hval]
  rw [hcb]
  exact ⟨hval, rfl, rfl⟩

/-- Example store for the duplicate-id booking-creation witness. -/
def exDB10 : DB :=
  { flights := [exF1], airlines := exAl, bookings := [], events := [],
    counters := [], nextBookingId := 1, nextEventId := 1, now := 0 }

theorem C10_duplicate_fails_witness :
    (createBooking exDB10 5 ⟨"DEL", "BOM", 1, 1, [1, 1]⟩ "2026-10-11").2 =
      exDB10 :=
  (C10_duplicate_fails exDB10 5 "DEL" "BOM" 1 1 [1, 1] "2026-10-11"
    (by decide) (by decide) (by decide)).2.2

/-- Every run of `createBooking` either reports an error with the store
returned unchanged, or reports no error. -/
theorem createBooking_fail_or_write (db : DB) (uid : Nat) (req : CreateRequest)
    (dateKey : String) :
    (∃ e, createBooking db uid req dateKey = (some e, db)) ∨
    (createBooking db uid req dateKey).1 = none := by
  rw [createBooking]
  split
  · exact Or.inl ⟨_, rfl⟩
  · split
    · exact Or.inl ⟨_, rfl⟩
    · dsimp only
      split
      · exact Or.inl ⟨_, rfl⟩
      · split
        · exact Or.inl ⟨_, rfl⟩
        · exact Or.inr rfl

/-- C4: `createBooking` fails with InvalidRoute when origin equals
destination, then propagates any `validateFlightSequence` failure, then
fails with InvalidFlights when no requested id resolves, then with
RouteMismatch when the resolved endpoints differ from the request; on
every failure the returned store is exactly the input store — all
validation precedes the first write. -/
theorem C4_create_validation (db : DB) (uid : Nat) (req : CreateRequest)
    (dateKey : String) :
    (req.origin = req.destination →
      createBooking db uid req dateKey = (some .invalidRoute, db)) ∧
    (req.origin ≠ req.destination →
      ∀ e, validateFlightSequence db.flights db.airlines req.flight_ids = some e →
      createBooking db uid req dateKey = (some (.invalidSequence e), db)) ∧
    (req.origin ≠ req.destination →
      validateFlightSequence db.flights db.airlines req.flight_ids = none →
      getFlightDetails db.flights db.airlines req.flight_ids = [] →
      createBooking db uid req dateKey = (some .invalidFlights, db)) ∧
    (req.origin ≠ req.destination →
      validateFlightSequence db.flights db.airlines req.flight_ids = none →
      ∀ hfe : getFlightDetails db.flights db.airlines req.flight_ids ≠ [],
      ((getFlightDetails db.flights db.airlines req.flight_ids).head hfe).origin ≠
          req.origin ∨
        ((getFlightDetails db.flights db.airlines req.flight_ids).getLast
          hfe).destination ≠ req.destination →
      createBooking db uid req dateKey = (some .routeMismatch, db)) ∧
    (∀ err, (createBooking db uid req dateKey).1 = some err →
      (createBooking db uid req dateKey).2 = db) := by
  refine ⟨?_, ?_, ?_, ?_, ?_⟩
  · intro ho
    rw [createBooking, if_pos ho]
  · intro ho e hv
    rw [createBooking, if_neg ho, hv]
  · intro ho hv hfe
    rw [createBooking, if_neg ho, hv]
    simp only [hfe, List.length_nil]
    simp
  · intro ho hv hfe hmm
    rw [createBooking, if_neg ho, hv]
    have hlen : ¬ (getFlightDetails db.flights db.airlines req.flight_ids).length = 0 := by
      simpa [List.length_eq_zero] using hfe
    rw [if_neg hlen]
    have hhead : (getFlightDetails db.flights db.airlines
        req.flight_ids).head?.getD default =
        (getFlightDetails db.flights db.airlines req.flight_ids).head hfe := by
      rw [List.head?_eq_head hfe]
      rfl
    have hlast : (getFlightDetails db.flights db.airlines
        req.flight_ids).getLast?.getD default =
        (getFlightDetails db.flights db.airlines req.flight_ids).getLast hfe := by
      rw [List.getLast?_eq_getLast _ hfe]
      rfl
    rw [if_pos (by rw [hhead, hlast]; exact hmm)]
  · intro err herr
    rcases createBooking_fail_or_write db uid req dateKey with ⟨e, he⟩ | hn
    · rw [he]
    · rw [hn] at herr
      cases herr

theorem C4_create_validation_witness :
    createBooking exDB10 5 ⟨"DEL", "DEL", 1, 1, [1]⟩ "2026-10-11" =
      (some .invalidRoute, exDB10) :=
  (C4_create_validation exDB10 5 ⟨"DEL", "DEL", 1, 1, [1]⟩ "2026-10-11").1 rfl

theorem find?_pred_of_eq_some {p : α → Bool} {l : List α} {a : α}
    (h : l.find? p = some a) : p a = true := by
  induction l with
  | nil => cases h
  | cons x t ih =>
    by_cases hx : p x = true
    · rw [List.find?_cons_of_pos _ hx] at h
      cases h
      exact hx
    · rw [List.find?_cons_of_neg _ hx] at h
      exact ih h

theorem mem_firstDedup {x : Nat} : ∀ {l : List Nat}, x ∈ firstDedup l ↔ x ∈ l := by
  intro l
  induction l with
  | nil => simp [firstDedup]
  | cons a t ih =>
    simp only [firstDedup, List.mem_cons, List.mem_filter, decide_eq_true_eq]
    constructor
    · rintro (h | ⟨h, _⟩)
      · exact Or.inl h
      · exact Or.inr (ih.mp h)
    · rintro (h | h)
      · exact Or.inl h
      · by_cases hxa : x = a
        · exact Or.inl hxa
        · exact Or.inr ⟨ih.mpr h, hxa⟩

/-- C8: `getBookingHistory` returns NotFound (`none`) exactly when no
booking matches the reference; otherwise it returns the matching booking,
its timeline events ordered by creation time ascending (a permutation of
exactly the booking's events), the resolved flights of the stored
itinerary — an empty list, not an error, when the stored data is absent
or unparseable — and the distinct set of carriers referenced by those
flights. -/
theorem C8_history (db : DB) (ref : String)
    (hal : (db.airlines.map Airline.id).Nodup) :
    (getBookingHistory db ref = none ↔ ∀ b ∈ db.bookings, b.ref_id ≠ ref) ∧
    (∀ r, getBookingHistory db ref = some r →
      r.booking ∈ db.bookings ∧ r.booking.ref_id = ref ∧
      r.timeline.Pairwise (keyLE TimelineEvent.created_at) ∧
      r.timeline.Perm (db.events.filter
        (fun e => decide (e.booking_id = r.booking.id))) ∧
      (r.booking.flight_ids = .absent → r.flight_details = []) ∧
      (r.booking.flight_ids = .malformed → r.flight_details = []) ∧
      (∀ l, r.booking.flight_ids = .ids l →
        r.flight_details = getFlightDetails db.flights db.airlines l) ∧
      (r.airline_details.map Airline.id).Nodup ∧
      (∀ a, a ∈ r.airline_details ↔ a ∈ db.airlines ∧
        a.id ∈ r.flight_details.map Flight.airline_id)) := by
  constructor
  · rw [getBookingHistory]
    cases hfind : findByRefId db ref with
    | none =>
      simp only []
      constructor
      · intro _ b hb hbr
        rw [findByRefId, List.find?_eq_none] at hfind
        exact absurd (decide_eq_true hbr) (by simpa using hfind b hb)
      · intro _
        trivial
    | some b =>
      rw [findByRefId] at hfind
      constructor
      · intro hcon
        exfalso
        cases hitin : b.flight_ids <;> simp [hitin] at hcon
      · intro hall
        exfalso
        have hb := List.mem_of_find?_eq_some hfind
        have hpr := find?_pred_of_eq_some hfind
        exact hall b hb (of_decide_eq_true hpr)
  · intro r hr
    rw [getBookingHistory] at hr
    cases hfind : findByRefId db ref with
    | none =>
      rw [hfind] at hr
      cases hr
    | some b =>
      rw [hfind] at hr
      dsimp only at hr
      rw [findByRefId] at hfind
      have hb : b ∈ db.bookings := List.mem_of_find?_eq_some hfind
      have hpr := find?_pred_of_eq_some hfind
      have hbr : b.ref_id = ref := of_decide_eq_true hpr
      cases hitin : b.flight_ids with
      | absent =>
        rw [hitin] at hr
        simp only [Option.some_inj] at hr
        subst hr
        refine ⟨hb, hbr, sorted_sortByKey _ _, sortByKey_perm _ _, fun _ => rfl,
          fun _ => rfl, ?_, List.nodup_nil, fun a => ?_⟩
        · intro l hl
          rw [hitin] at hl
          exact StoredItin.noConfusion hl
        · simp
      | malformed =>
        rw [hitin] at hr
        simp only [Option.some_inj] at hr
        subst hr
        refine ⟨hb, hbr, sorted_sortByKey _ _, sortByKey_perm _ _, fun _ => rfl,
          fun _ => rfl, ?_, List.nodup_nil, fun a => ?_⟩
        · intro l hl
          rw [hitin] at hl
          exact StoredItin.noConfusion hl
        · simp
      | ids l =>
        rw [hitin] at hr
        simp only [Option.some_inj] at hr
        subst hr
        refine ⟨hb, hbr, sorted_sortByKey _ _, sortByKey_perm _ _,
          ?_, ?_, ?_, ?_, fun a => ?_⟩
        · intro h
          rw [hitin] at h
          exact StoredItin.noConfusion h
        · intro h
          rw [hitin] at h
          exact StoredItin.noConfusion h
        · intro l' hl'
          rw [hitin] at hl'
          injection hl' with hll
          subst hll
          rfl
        · have hsub : ((db.airlines.filter (fun a => decide (a.id ∈
              firstDedup ((getFlightDetails db.flights db.airlines l).map
                Flight.airline_id)))).map Airline.id).Sublist
              (db.airlines.map Airline.id) :=
            (List.filter_sublist db.airlines).map Airline.id
          exact hal.sublist hsub
        · rw [List.mem_filter]
          simp only [decide_eq_true_eq]
          exact and_congr_right (fun _ => mem_firstDedup)

/-- Example booking for the history witness. -/
def exB8 : Booking :=
  { id := 3, ref_id := "AC-20260102-0001", user_id := 7, origin := "DEL",
    destination := "BOM", pieces := 1, weight_kg := 10, status := .BOOKED,
    flight_ids := .ids [1], updated_at := 0 }

/-- Example store for the history witness: one booking with one event. -/
def exDB8 : DB :=
  { flights := [exF1], airlines := exAl, bookings := [exB8],
    events := [⟨1, 3, .CREATED, some "DEL", none, none, 100⟩],
    counters := [], nextBookingId := 4, nextEventId := 2, now := 200 }

theorem C8_history_witness : getBookingHistory exDB8 "ZZ" = none :=
  (C8_history exDB8 "ZZ" (by decide)).1.mpr (by decide)

/-! ## Transit-search lemmas -/

/-- Adding 24 hours to a timestamp advances its calendar date by exactly
one day. -/
theorem dateOf_add_day (t : Int) : dateOf (t + msPerDay) = dateOf t + 1 := by
  simp only [dateOf, msPerDay]
  rw [Int.fdiv_eq_ediv _ (by norm_num), Int.fdiv_eq_ediv _ (by norm_num)]
  have h : t + 86400000 = t + 1 * 86400000 := by ring
  rw [h, Int.add_mul_ediv_right t 1 (by norm_num)]

theorem transit_countP_zero (blk : Flight → List TransitRoute) (f1 : Flight)
    (hblk : ∀ x, ∀ q ∈ blk x, q.first_flight = x) :
    ∀ L : List Flight, L.count f1 = 0 →
      (L.flatMap blk).countP (fun q => decide (q.first_flight = f1)) = 0 := by
  intro L
  induction L with
  | nil => intro _; rfl
  | cons x t ih =>
    intro hc
    rw [List.count_cons] at hc
    have hx : ¬ (x == f1) = true := by
      intro h
      rw [if_pos h] at hc
      omega
    have hxne : x ≠ f1 := fun h => hx (beq_iff_eq.mpr h)
    have hc0 : t.count f1 = 0 := by
      rw [if_neg hx] at hc
      omega
    rw [List.flatMap_cons, List.countP_append, ih hc0]
    have hz : (blk x).countP (fun q => decide (q.first_flight = f1)) = 0 := by
      rw [List.countP_eq_zero]
      intro q hq
      simp only [decide_eq_true_eq]
      rw [hblk x q hq]
      exact hxne
    omega

theorem transit_countP_le (blk : Flight → List TransitRoute) (f1 : Flight)
    (hblk : ∀ x, ∀ q ∈ blk x, q.first_flight = x)
    (hlen : (blk f1).length ≤ 5) :
    ∀ L : List Flight, L.count f1 ≤ 1 →
      (L.flatMap blk).countP (fun q => decide (q.first_flight = f1)) ≤ 5 := by
  intro L
  induction L with
  | nil => intro _; exact Nat.zero_le 5
  | cons x t ih =>
    intro hc
    rw [List.flatMap_cons, List.countP_append]
    by_cases hx : x = f1
    · subst hx
      have hct : t.count x = 0 := by
        rw [List.count_cons] at hc
        rw [if_pos (beq_iff_eq.mpr rfl)] at hc
        omega
      rw [transit_countP_zero blk x hblk t hct]
      have := List.countP_le_length (l := blk x)
        (fun q => decide (q.first_flight = x))
      omega
    · have hz : (blk x).countP (fun q => decide (q.first_flight = f1)) = 0 := by
        rw [List.countP_eq_zero]
        intro q hq
        simp only [decide_eq_true_eq]
        rw [hblk x q hq]
        exact hx
      have hct : t.count f1 ≤ 1 := by
        rw [List.count_cons] at hc
        have hxb : ¬ (x == f1) = true := fun h => hx (beq_iff_eq.mp h)
        rw [if_neg hxb] at hc
        omega
      rw [hz]
      have := ih hct
      omega

/-- C3: every transit pair returned by `findTransitRoutes` consists of a
first leg leaving the origin on the search date towards a hub other than
the destination and a second leg from that hub to the destination whose
departure falls on the arrival's calendar day or the next and whose
connection gap lies within the 2h–24h window; the result is sorted by
total elapsed time ascending, holds at most 10 pairs, and contains at
most 5 pairs per first leg (the per-hub LIMIT 5). -/
theorem C3_transit_search (fl : List Flight) (al : List Airline)
    (o d : String) (day : Int)
    (hpk : (fl.map Flight.id).Nodup) :
    (∀ p ∈ findTransitRoutes fl al o d day,
      p.first_flight ∈ fl ∧ p.second_flight ∈ fl ∧
      flightHasAirline al p.first_flight ∧ flightHasAirline al p.second_flight ∧
      p.first_flight.origin = o ∧ dateOf p.first_flight.dep = day ∧
      p.first_flight.destination ≠ d ∧
      p.second_flight.origin = p.first_flight.destination ∧
      p.second_flight.destination = d ∧
      (dateOf p.second_flight.dep = dateOf p.first_flight.arr ∨
        dateOf p.second_flight.dep = dateOf p.first_flight.arr + 1) ∧
      minConnectionMs ≤ p.second_flight.dep - p.first_flight.arr ∧
      p.second_flight.dep - p.first_flight.arr ≤ maxConnectionMs) ∧
    (findTransitRoutes fl al o d day).Pairwise (keyLE totalTravelMs) ∧
    (findTransitRoutes fl al o d day).length ≤ 10 ∧
    (∀ f1, (findTransitRoutes fl al o d day).countP
      (fun q => decide (q.first_flight = f1)) ≤ 5) := by
  refine ⟨?_, ?_, ?_, ?_⟩
  · intro p hp
    simp only [findTransitRoutes] at hp
    have hp1 := mem_sortByKey.mp ((List.take_sublist _ _).subset hp)
    obtain ⟨f1, hf1, hpblk⟩ := List.mem_flatMap.mp hp1
    obtain ⟨f2, hf2, hpeq⟩ := List.mem_map.mp hpblk
    subst hpeq
    rw [firstLegFlights] at hf1
    obtain ⟨hf1fl, hf1dec⟩ := List.mem_filter.mp (mem_sortByKey.mp hf1)
    obtain ⟨hf1air, hf1o, hf1day, hf1ne⟩ := of_decide_eq_true hf1dec
    obtain ⟨hf2cand, hf2dec⟩ := List.mem_filter.mp hf2
    obtain ⟨hconn1, hconn2⟩ := of_decide_eq_true hf2dec
    rw [secondLegCandidates] at hf2cand
    obtain ⟨hf2fl, hf2dec2⟩ := List.mem_filter.mp
      (mem_sortByKey.mp ((List.take_sublist _ _).subset hf2cand))
    obtain ⟨hf2air, hf2o, hf2d, hf2day, _⟩ := of_decide_eq_true hf2dec2
    refine ⟨hf1fl, hf2fl, hf1air, hf2air, hf1o, hf1day, hf1ne, hf2o, hf2d,
      ?_, hconn1, hconn2⟩
    rcases hf2day with h | h
    · exact Or.inl h
    · exact Or.inr (by rw [h, dateOf_add_day])
  · simp only [findTransitRoutes]
    exact List.Pairwise.sublist (List.take_sublist _ _) (sorted_sortByKey _ _)
  · simp only [findTransitRoutes]
    exact List.length_take_le _ _
  · intro f1
    simp only [findTransitRoutes]
    have hblk : ∀ x : Flight, ∀ q ∈ ((secondLegCandidates fl al x.destination d
        x.arr).filter (fun f2 => decide (minConnectionMs ≤ f2.dep - x.arr ∧
          f2.dep - x.arr ≤ maxConnectionMs))).map (fun f2 => TransitRoute.mk x f2),
        q.first_flight = x := by
      intro x q hq
      obtain ⟨f2, _, hqeq⟩ := List.mem_map.mp hq
      rw [← hqeq]
    have hlen : (((secondLegCandidates fl al f1.destination d
        f1.arr).filter (fun f2 => decide (minConnectionMs ≤ f2.dep - f1.arr ∧
          f2.dep - f1.arr ≤ maxConnectionMs))).map
          (fun f2 => TransitRoute.mk f1 f2)).length ≤ 5 := by
      rw [List.length_map]
      calc ((secondLegCandidates fl al f1.destination d f1.arr).filter
            (fun f2 => decide (minConnectionMs ≤ f2.dep - f1.arr ∧
              f2.dep - f1.arr ≤ maxConnectionMs))).length
          ≤ (secondLegCandidates fl al f1.destination d f1.arr).length :=
            (List.filter_sublist _).length_le
        _ ≤ 5 := by
            rw [secondLegCandidates]
            exact List.length_take_le _ _
    have hcount : (firstLegFlights fl al o d day).count f1 ≤ 1 := by
      rw [firstLegFlights]
      calc (sortByKey Flight.dep (fl.filter (fun f => decide (flightHasAirline al f ∧
            f.origin = o ∧ dateOf f.dep = day ∧ f.destination ≠ d)))).count f1
          = (fl.filter (fun f => decide (flightHasAirline al f ∧
            f.origin = o ∧ dateOf f.dep = day ∧ f.destination ≠ d))).count f1 :=
            (sortByKey_perm _ _).count_eq f1
        _ ≤ fl.count f1 := (List.filter_sublist _).count_le f1
        _ ≤ 1 := List.nodup_iff_count_le_one.mp (List.Nodup.of_map Flight.id hpk) f1
    calc ((sortByKey totalTravelMs ((firstLegFlights fl al o d day).flatMap
          (fun f1 => ((secondLegCandidates fl al f1.destination d
            f1.arr).filter (fun f2 => decide (minConnectionMs ≤ f2.dep - f1.arr ∧
              f2.dep - f1.arr ≤ maxConnectionMs))).map
            (fun f2 => TransitRoute.mk f1 f2)))).take 10).countP
          (fun q => decide (q.first_flight = f1))
        ≤ (sortByKey totalTravelMs ((firstLegFlights fl al o d day).flatMap
          (fun f1 => ((secondLegCandidates fl al f1.destination d
            f1.arr).filter (fun f2 => decide (minConnectionMs ≤ f2.dep - f1.arr ∧
              f2.dep - f1.arr ≤ maxConnectionMs))).map
            (fun f2 => TransitRoute.mk f1 f2)))).countP
          (fun q => decide (q.first_flight = f1)) :=
          (List.take_sublist _ _).countP_le _
      _ = ((firstLegFlights fl al o d day).flatMap
          (fun f1 => ((secondLegCandidates fl al f1.destination d
            f1.arr).filter (fun f2 => decide (minConnectionMs ≤ f2.dep - f1.arr ∧
              f2.dep - f1.arr ≤ maxConnectionMs))).map
            (fun f2 => TransitRoute.mk f1 f2))).countP
          (fun q => decide (q.first_flight = f1)) :=
          (sortByKey_perm _ _).countP_eq _
      _ ≤ 5 := transit_countP_le _ f1 hblk hlen _ hcount

theorem C3_transit_search_witness :
    TransitRoute.mk exF1 exF2 ∈ findTransitRoutes [exF1, exF2] exAl "DEL" "BLR" 0 ∧
    minConnectionMs ≤ exF2.dep - exF1.arr ∧ exF2.dep - exF1.arr ≤ maxConnectionMs := by
  have hmem : TransitRoute.mk exF1 exF2 ∈
      findTransitRoutes [exF1, exF2] exAl "DEL" "BLR" 0 := by decide
  have h := (C3_transit_search [exF1, exF2] exAl "DEL" "BLR" 0 (by decide)).1
    (TransitRoute.mk exF1 exF2) hmem
  exact ⟨hmem, h.2.2.2.2.2.2.2.2.2.2.1, h.2.2.2.2.2.2.2.2.2.2.2⟩

end AirCargo
